import Mathlib

/-!
Shallow embedding of the USB-HTTP transport of ipp-usb (file src/unnamed/part_000)
and proofs of the specification claims about it.

The embedding follows the Go source function by function:
  * `hdrDel` / `hdrSet` / `hdrGet`  — Go map[string][]string (http.Header) operations
  * `headerPrep`, `rtPrepRequest`   — header preprocessing of RoundTripWithSession
  * `wrapBody`, `goCopyN`, `shapeBody` — body shaping of RoundTripWithSession
  * `usbConnGet`                    — pool acquisition (Go select semantics)
  * `alignedLen`, `usbReadLoop`     — usbConn.Read
  * `respBodyDrained`, `respBodyClose` — usbResponseBodyWrapper
  * `rtAfterAcquire`                — write / ReadResponse error paths
  * `connStateString`               — usbConnState.String
-/

namespace IppUsb

/-- Go error values relevant to the transport.  `shutdown` is ErrShutdown,
`ctxCanceled` is ctx.Err(), `eof` is io.EOF, `other` stands for any other
distinct error value. -/
inductive GoErr where
  | shutdown
  | ctxCanceled
  | eof
  | other (code : Nat)
deriving DecidableEq, Repr

/-- Go http.Header is a map from canonical header names to lists of values.
Modelled as an association list whose keys are unique; the Go map operations
below preserve uniqueness. -/
abbrev Header := List (String × List String)

/-- Go map deletion: `delete(h, k)` (http.Header.Del with canonical key). -/
def hdrDel (k : String) (h : Header) : Header :=
  match h with
  | [] => []
  | p :: t => if p.1 = k then hdrDel k t else p :: hdrDel k t

/-- Go http.Header.Set: replace all values of key `k` by the single value `v`. -/
def hdrSet (k v : String) (h : Header) : Header :=
  (k, [v]) :: hdrDel k h

/-- Go map lookup `h[k]`: the values stored under key `k`, if present. -/
def hdrGet (k : String) (h : Header) : Option (List String) :=
  match h with
  | [] => none
  | p :: t => if p.1 = k then some p.2 else hdrGet k t

/-- Go map assignment `h[k] = vs` for a key known to be absent. -/
def hdrAdd (k : String) (vs : List String) (h : Header) : Header :=
  (k, vs) :: h

theorem hdrGet_del_self (k : String) (h : Header) :
    hdrGet k (hdrDel k h) = none := by
  induction h with
  | nil => rfl
  | cons p t ih =>
    by_cases hpk : p.1 = k
    · simp [hdrDel, hpk, ih]
    · simp [hdrDel, hdrGet, hpk, ih]

theorem hdrGet_del_ne (k k2 : String) (h : Header) (hne : k ≠ k2) :
    hdrGet k (hdrDel k2 h) = hdrGet k h := by
  induction h with
  | nil => rfl
  | cons p t ih =>
    have hk2 : ¬ k2 = k := fun hc => hne hc.symm
    by_cases hpk : p.1 = k2
    · have hk : ¬ p.1 = k := fun hc => hne (by rw [← hc, hpk])
      simp [hdrDel, hdrGet, hpk, hk, hk2, ih]
    · by_cases hk : p.1 = k
      · simp [hdrDel, hdrGet, hpk, hk, hne]
      · simp [hdrDel, hdrGet, hpk, hk, ih]

theorem hdrGet_set_self (k v : String) (h : Header) :
    hdrGet k (hdrSet k v h) = some [v] := by
  simp [hdrSet, hdrGet]

theorem hdrGet_set_ne (k k2 v : String) (h : Header) (hne : k ≠ k2) :
    hdrGet k (hdrSet k2 v h) = hdrGet k h := by
  have hk : ¬ k2 = k := fun hc => hne hc.symm
  simp [hdrSet, hdrGet, hk, hdrGet_del_ne k k2 h hne]

/-- Header preprocessing performed by RoundTripWithSession (part_000 lines
194-208): delete Expect, set Connection to close, insert the default
User-Agent value when the key is absent (Go: `outreq.Header.Del("Expect")`,
`outreq.Header.Set("Connection", "close")`, and map insertion of
`[]string{"ipp-usb"}` guarded by a presence check). -/
def headerPrep (h : Header) : Header :=
  if (hdrGet "User-Agent" (hdrSet "Connection" "close" (hdrDel "Expect" h))).isSome then
    hdrSet "Connection" "close" (hdrDel "Expect" h)
  else
    hdrAdd "User-Agent" ["ipp-usb"] (hdrSet "Connection" "close" (hdrDel "Expect" h))

theorem headerPrep_expect (h : Header) : hdrGet "Expect" (headerPrep h) = none := by
  have base : hdrGet "Expect" (hdrSet "Connection" "close" (hdrDel "Expect" h)) = none := by
    rw [hdrGet_set_ne _ _ _ _ (by decide), hdrGet_del_self]
  rw [headerPrep]
  split
  · exact base
  · simp only [hdrAdd, hdrGet]
    rw [if_neg (by decide)]
    exact base

theorem headerPrep_connection (h : Header) :
    hdrGet "Connection" (headerPrep h) = some ["close"] := by
  have base : hdrGet "Connection" (hdrSet "Connection" "close" (hdrDel "Expect" h)) =
      some ["close"] := hdrGet_set_self _ _ _
  rw [headerPrep]
  split
  · exact base
  · simp only [hdrAdd, hdrGet]
    rw [if_neg (by decide)]
    exact base

theorem headerPrep_ua (h : Header) :
    hdrGet "User-Agent" (headerPrep h) =
      some ((hdrGet "User-Agent" h).getD ["ipp-usb"]) := by
  have base : hdrGet "User-Agent" (hdrSet "Connection" "close" (hdrDel "Expect" h)) =
      hdrGet "User-Agent" h := by
    rw [hdrGet_set_ne _ _ _ _ (by decide), hdrGet_del_ne _ _ _ (by decide)]
  rw [headerPrep]
  split
  next hua =>
    rw [base] at hua ⊢
    cases hv : hdrGet "User-Agent" h with
    | none => rw [hv] at hua; simp at hua
    | some v => simp [hv]
  next hua =>
    rw [base] at hua
    have hnone : hdrGet "User-Agent" h = none :=
      Option.not_isSome_iff_eq_none.mp hua
    simp [hdrAdd, hdrGet, hnone]

/-- The fields of http.Request that the transport touches. -/
structure GoRequest where
  header : Header
  closeFlag : Bool      -- Request.Close
  hasCancel : Bool      -- Request.Cancel is non-nil
  contentLength : Int   -- Request.ContentLength
deriving Repr, DecidableEq

/-- The request mutation performed by RoundTripWithSession before body
shaping (part_000 lines 191-208): detach the context and Cancel channel,
preprocess the headers, and set Close. -/
def rtPrepRequest (rq : GoRequest) : GoRequest :=
  { rq with header := headerPrep rq.header, closeFlag := true, hasCancel := false }

/-- C4: every outbound request written to USB has no Expect header,
Connection set to close with the request marked non-keep-alive, and a
User-Agent header (the caller's one if present, else the default). -/
theorem rtPrepRequest_headers (rq : GoRequest) :
    hdrGet "Expect" (rtPrepRequest rq).header = none ∧
    hdrGet "Connection" (rtPrepRequest rq).header = some ["close"] ∧
    (rtPrepRequest rq).closeFlag = true ∧
    hdrGet "User-Agent" (rtPrepRequest rq).header =
      some ((hdrGet "User-Agent" rq.header).getD ["ipp-usb"]) :=
  ⟨headerPrep_expect rq.header, headerPrep_connection rq.header, rfl,
   headerPrep_ua rq.header⟩

/-! ### Aliasing between the original request and the outbound clone (C9)

Go's `rq.WithContext(ctx)` makes a shallow copy of the Request struct:
the `Header` map *pointer* is copied, so the clone and the original share
one header map.  We model the heap of header maps explicitly: a request
holds a reference (index) into a store of header maps. -/

abbrev HeaderStore := Nat → Header

/-- A request as a struct holding a reference to its shared header map. -/
structure GoRequestRef where
  headerRef : Nat       -- pointer to the Header map
  detachedCtx : Bool    -- context replaced by context.Background()
  closeFlag : Bool
  hasCancel : Bool
deriving Repr, DecidableEq

/-- `rq.WithContext(context.Background())`: shallow struct copy with a fresh
context; the headerRef (map pointer) is copied unchanged. -/
def withBackgroundContext (r : GoRequestRef) : GoRequestRef :=
  { r with detachedCtx := true }

/-- The header phase of RoundTripWithSession on the store model (part_000
lines 191-208): build outreq by shallow copy, then mutate the shared header
map through outreq's reference. -/
def rtHeaderPhase (st : HeaderStore) (rq : GoRequestRef) :
    HeaderStore × GoRequestRef :=
  let outreq := { withBackgroundContext rq with hasCancel := false }
  let st2 := fun i =>
    if i = outreq.headerRef then headerPrep (st outreq.headerRef) else st i
  (st2, { outreq with closeFlag := true })

/-- C9: the header preprocessing mutates the caller's original request's
header map, because the outbound clone shares it: after the header phase,
reading the ORIGINAL request's header map shows Expect deleted, Connection
set to close, and a User-Agent present (defaulted when absent). -/
theorem rtHeaderPhase_mutates_original (st : HeaderStore) (rq : GoRequestRef) :
    (rtHeaderPhase st rq).1 rq.headerRef = headerPrep (st rq.headerRef) ∧
    hdrGet "Expect" ((rtHeaderPhase st rq).1 rq.headerRef) = none ∧
    hdrGet "Connection" ((rtHeaderPhase st rq).1 rq.headerRef) = some ["close"] ∧
    hdrGet "User-Agent" ((rtHeaderPhase st rq).1 rq.headerRef) =
      some ((hdrGet "User-Agent" (st rq.headerRef)).getD ["ipp-usb"]) := by
  have hsame : (rtHeaderPhase st rq).1 rq.headerRef = headerPrep (st rq.headerRef) := by
    simp [rtHeaderPhase, withBackgroundContext]
  exact ⟨hsame, by rw [hsame]; exact headerPrep_expect _,
         by rw [hsame]; exact headerPrep_connection _,
         by rw [hsame]; exact headerPrep_ua _⟩

/-! ### Request bodies and body shaping (C2, C10)

A request body (io.ReadCloser) is modelled by the sequence of results its
successive Read calls deliver: each entry is (bytes delivered, error).  An
entry carrying an error terminates the stream; reading past the end of the
list yields (0, io.EOF). -/

abbrev BodyStream := List (Nat × Option GoErr)

/-- usbRequestBodyWrapper.Read (part_000 lines 308-320): reads pass through,
but any error — io.EOF included — is coerced to io.EOF. -/
def wrapBody (s : BodyStream) : BodyStream :=
  s.map (fun p => (p.1, p.2.map (fun _ => GoErr.eof)))

/-- Total number of bytes the stream delivers before its first error or its
end-of-stream. -/
def streamAvail : BodyStream → Nat
  | [] => 0
  | (n, some _) :: _ => n
  | (n, none) :: rest => n + streamAvail rest

/-- The error that terminates the stream (io.EOF when it simply ends). -/
def streamErr : BodyStream → GoErr
  | [] => GoErr.eof
  | (_, some e) :: _ => e
  | (_, none) :: rest => streamErr rest

/-- io.CopyN(dst, body, L) for a body modelled as a BodyStream: copy until L
bytes are copied or the stream ends/errors.  Returns (copied, error): nil
when exactly L bytes were copied, io.EOF when the stream ended early, and
the stream's own error when it failed early (io.CopyN keeps a non-EOF read
error and turns an early EOF into io.EOF). -/
def goCopyN : Nat → BodyStream → Nat × Option GoErr
  | L, [] => if L = 0 then (0, none) else (0, some GoErr.eof)
  | L, (n, e) :: rest =>
    if L = 0 then (0, none)
    else if L ≤ n then (L, none)
    else
      match e with
      | some err => (n, some err)
      | none =>
        let r := goCopyN (L - n) rest
        (n + r.1, r.2)

theorem goCopyN_short (L : Nat) (s : BodyStream) (h : streamAvail s < L) :
    goCopyN L s = (streamAvail s, some (streamErr s)) := by
  induction s generalizing L with
  | nil =>
    have : L ≠ 0 := by simpa [streamAvail] using Nat.pos_iff_ne_zero.mp h
    simp [goCopyN, streamAvail, streamErr, this]
  | cons p rest ih =>
    obtain ⟨n, e⟩ := p
    cases e with
    | some err =>
      have hn : streamAvail ((n, some err) :: rest) = n := rfl
      rw [hn] at h
      have hL0 : ¬ L = 0 := by omega
      have hLn : ¬ L ≤ n := by omega
      simp [goCopyN, hL0, hLn, streamAvail, streamErr]
    | none =>
      have hn : streamAvail ((n, none) :: rest) = n + streamAvail rest := rfl
      rw [hn] at h
      have hL0 : ¬ L = 0 := by omega
      have hLn : ¬ L ≤ n := by omega
      have hrest : streamAvail rest < L - n := by omega
      simp [goCopyN, hL0, hLn, streamAvail, streamErr, ih _ hrest]

theorem goCopyN_complete (L : Nat) (s : BodyStream)
    (h : (goCopyN L s).2 = none) : (goCopyN L s).1 = L := by
  induction s generalizing L with
  | nil =>
    by_cases hL : L = 0
    · simp [goCopyN, hL]
    · simp [goCopyN, hL] at h
  | cons p rest ih =>
    obtain ⟨n, e⟩ := p
    by_cases hL0 : L = 0
    · simp [goCopyN, hL0]
    · by_cases hLn : L ≤ n
      · simp [goCopyN, hL0, hLn]
      · cases e with
        | some err => simp [goCopyN, hL0, hLn] at h
        | none =>
          simp [goCopyN, hL0, hLn] at h ⊢
          have := ih (L - n) h
          omega

theorem wrapBody_avail (s : BodyStream) :
    streamAvail (wrapBody s) = streamAvail s := by
  induction s with
  | nil => rfl
  | cons p rest ih =>
    obtain ⟨n, e⟩ := p
    cases e with
    | some err => simp [wrapBody, streamAvail]
    | none => simpa [wrapBody, streamAvail] using congrArg (n + ·) ih

theorem wrapBody_err (s : BodyStream) : streamErr (wrapBody s) = GoErr.eof := by
  induction s with
  | nil => rfl
  | cons p rest ih =>
    obtain ⟨n, e⟩ := p
    cases e with
    | some err => simp [wrapBody, streamErr]
    | none => simpa [wrapBody, streamErr] using ih

/-- The body of the outbound request after shaping. -/
inductive ShapedBody where
  | absent
  | stream (s : BodyStream)   -- original (wrapped) body, streamed
  | buffer (len : Nat)        -- prefetched in-memory bytes.Buffer
deriving Repr, DecidableEq

/-- The request fields of interest for the transport pipeline. -/
structure RtRequest where
  header : Header
  closeFlag : Bool
  hasCancel : Bool
  contentLength : Int
  body : Option BodyStream
deriving Repr, DecidableEq

/-- The outbound request after body shaping. -/
structure ShapedRequest where
  header : Header
  closeFlag : Bool
  contentLength : Int
  body : ShapedBody
deriving Repr, DecidableEq

/-- The request untouched by shaping, viewed as a ShapedRequest. -/
def asShaped (rq : RtRequest) : ShapedRequest :=
  ⟨rq.header, rq.closeFlag, rq.contentLength,
   match rq.body with
   | none => ShapedBody.absent
   | some s => ShapedBody.stream s⟩

/-- Body shaping switch of RoundTripWithSession (part_000 lines 221-248):
ContentLength ≤ 0 — nothing to do; 0 < ContentLength < 16384 — io.CopyN the
whole body into a bytes.Buffer (propagating a copy error to the caller) and
replace the body by the buffer; otherwise — set ContentLength to -1 to force
chunked encoding.  A nil body with positive ContentLength is modelled as an
empty stream. -/
def shapeBody (rq : RtRequest) : Except GoErr ShapedRequest :=
  if rq.contentLength ≤ 0 then Except.ok (asShaped rq)
  else if rq.contentLength < 16384 then
    match goCopyN rq.contentLength.toNat (rq.body.getD []) with
    | (_, some e) => Except.error e
    | (cnt, none) =>
        Except.ok ⟨rq.header, rq.closeFlag, rq.contentLength, ShapedBody.buffer cnt⟩
  else Except.ok { asShaped rq with contentLength := -1 }

/-- The framing Go net/http chooses when serializing an outgoing request
(http.Request.Write): a positive ContentLength is sent as a literal
Content-Length header; a negative ContentLength with a body present is sent
with Transfer-Encoding chunked and no Content-Length header; otherwise the
request has no body framing.  Modelled from the platform library net/http,
which is not part of this repository. -/
inductive Framing where
  | noBody
  | contentLength (n : Int)
  | chunked
deriving Repr, DecidableEq

def requestFraming (contentLength : Int) (b : ShapedBody) : Framing :=
  match b with
  | ShapedBody.absent => Framing.noBody
  | _ =>
    if contentLength > 0 then Framing.contentLength contentLength
    else if contentLength < 0 then Framing.chunked
    else Framing.noBody

/-! ### Connection acquisition: usbConnGet (C1)

usbConnGet (part_000 lines 502-515) is a Go select over three cases:
receive on the closed-on-shutdown channel, receive on ctx.Done(), and
receive on the connection pool channel.  Per the Go specification, when
several communications can proceed, ONE OF THEM IS CHOSEN VIA A UNIFORM
PSEUDO-RANDOM SELECTION; when none can proceed the select blocks.  The
pseudo-random draw is modelled by an oracle `choice`. -/

/-- The three select cases of usbConnGet, in source order. -/
inductive AcqCase where
  | shutdownCase
  | ctxDoneCase
  | poolCase
deriving Repr, DecidableEq

/-- The select cases that can proceed: shutdown when the shutdown channel is
closed, ctx.Done when the caller's cancellation has fired, pool when an idle
connection is available. -/
def readyCases (shutdownClosed ctxDone : Bool) (pool : List Nat) : List AcqCase :=
  (if shutdownClosed then [AcqCase.shutdownCase] else []) ++
  (if ctxDone then [AcqCase.ctxDoneCase] else []) ++
  (if pool.isEmpty then [] else [AcqCase.poolCase])

/-- Result of usbConnGet.  `conn c rest` returns the connection at the head
of the pool channel, leaving `rest`; `blocked` models a select with no ready
case. -/
inductive AcqResult where
  | conn (c : Nat) (rest : List Nat)
  | err (e : GoErr)
  | blocked
deriving Repr, DecidableEq

/-- usbConnGet (part_000 lines 502-515) under Go select semantics: among the
ready cases one is chosen by the pseudo-random `choice`; shutdown yields
ErrShutdown, ctx.Done yields ctx.Err(), pool yields the connection. -/
def usbConnGet (shutdownClosed ctxDone : Bool) (pool : List Nat)
    (choice : Nat) : AcqResult :=
  let ready := readyCases shutdownClosed ctxDone pool
  if ready.isEmpty then AcqResult.blocked
  else
    match ready.getD (choice % ready.length) AcqCase.shutdownCase, pool with
    | AcqCase.shutdownCase, _ => AcqResult.err GoErr.shutdown
    | AcqCase.ctxDoneCase, _ => AcqResult.err GoErr.ctxCanceled
    | AcqCase.poolCase, [] => AcqResult.blocked  -- unreachable: poolCase ready means non-empty
    | AcqCase.poolCase, p :: ps => AcqResult.conn p ps

/-! ### The round-trip pipeline (C2, C7, C10)

RoundTripWithSession in order: header preprocessing, body wrapping, body
shaping (with early return on prefetch error), connection acquisition (with
early return on acquisition failure), request write, response parse.  The
observable USB/pool actions are recorded in an event trace. -/

inductive Ev where
  | acquire (c : Nat)         -- conn := <-transport.connPool
  | usbWrite (fr : Framing)   -- outreq.Write(conn)
  | usbParse                  -- http.ReadResponse(conn.reader, outreq)
  | put (c : Nat)             -- conn.put()
  | destroy (c : Nat)         -- conn.destroy()
deriving Repr, DecidableEq

/-- Environment oracle for one round trip: state of the shutdown/cancel
channels and pool at acquisition time, the select draw, and the outcomes of
the USB write and of response parsing. -/
structure RtOracle where
  shutdownClosed : Bool
  ctxDone : Bool
  choice : Nat
  writeErr : Option GoErr
  parseErr : Option GoErr
deriving Repr, DecidableEq

inductive RtResult where
  | ok (conn : Nat) (fr : Framing)  -- response returned, its body wrapper owns conn
  | err (e : GoErr)
  | blocked
deriving Repr, DecidableEq

/-- Request preprocessing of RoundTripWithSession before body shaping
(part_000 lines 191-217): detached context (drop Cancel), header rewrite,
Close flag, body wrapped in usbRequestBodyWrapper. -/
def rtPrep (rq : RtRequest) : RtRequest :=
  { rq with header := headerPrep rq.header, closeFlag := true,
            hasCancel := false, body := rq.body.map wrapBody }

/-- RoundTripWithSession (part_000 lines 181-295) as a function of the
request, the idle pool, and the environment oracle.  Returns the result, the
pool of idle connections afterwards (a connection owned by a returned
response is not idle), and the trace of USB/pool events. -/
def rtRoundTrip (rq : RtRequest) (pool : List Nat) (orc : RtOracle) :
    RtResult × List Nat × List Ev :=
  match shapeBody (rtPrep rq) with
  | Except.error e => (RtResult.err e, pool, [])
  | Except.ok sh =>
    let fr := requestFraming sh.contentLength sh.body
    match usbConnGet orc.shutdownClosed orc.ctxDone pool orc.choice with
    | AcqResult.blocked => (RtResult.blocked, pool, [])
    | AcqResult.err e => (RtResult.err e, pool, [])
    | AcqResult.conn c rest =>
      match orc.writeErr with
      | some e =>
        (RtResult.err e, rest ++ [c], [Ev.acquire c, Ev.usbWrite fr, Ev.put c])
      | none =>
        match orc.parseErr with
        | some e =>
          (RtResult.err e, rest ++ [c],
           [Ev.acquire c, Ev.usbWrite fr, Ev.usbParse, Ev.put c])
        | none =>
          (RtResult.ok c fr, rest, [Ev.acquire c, Ev.usbWrite fr, Ev.usbParse])

/-! ### Claim C1: acquisition priority after shutdown -/

/-- C1 counterexample: with the shutdown flag signalled and a connection
simultaneously available in the pool, Go select may draw the pool case, so
usbConnGet returns the connection instead of the shutdown error.  (Claim C1
asserts the call always fails with the shutdown error.) -/
theorem usbConnGet_shutdown_loses_cex :
    usbConnGet true false [5] 1 = AcqResult.conn 5 [] ∧
    usbConnGet true false [5] 1 ≠ AcqResult.err GoErr.shutdown := by
  decide

/-- C1 (amended): after shutdown is signalled, usbConnGet never blocks; it
fails with the dedicated shutdown error whenever neither the caller's
cancellation nor a pooled connection is simultaneously ready; a returned
connection can only be one that was simultaneously available at the head of
the pool, and the cancellation error can only surface if cancellation had
fired — the winner among simultaneously-ready cases is the select's
pseudo-random draw, not a fixed priority. -/
theorem usbConnGet_after_shutdown (ctxDone : Bool) (pool : List Nat)
    (choice : Nat) :
    (ctxDone = false → pool = [] →
      usbConnGet true ctxDone pool choice = AcqResult.err GoErr.shutdown) ∧
    usbConnGet true ctxDone pool choice ≠ AcqResult.blocked ∧
    (∀ c rest, usbConnGet true ctxDone pool choice = AcqResult.conn c rest →
      pool = c :: rest) ∧
    (usbConnGet true ctxDone pool choice = AcqResult.err GoErr.ctxCanceled →
      ctxDone = true) := by
  cases ctxDone with
  | false =>
    cases pool with
    | nil =>
      have hm : choice % 1 = 0 := Nat.mod_one choice
      refine ⟨fun _ _ => ?_, ?_, fun c rest hc => ?_, fun hc => ?_⟩ <;>
        simp [usbConnGet, readyCases, hm, List.getD] at *
    | cons p ps =>
      have hm : choice % 2 = 0 ∨ choice % 2 = 1 := by omega
      refine ⟨fun _ hc => by simp at hc, ?_, fun c rest hc => ?_, fun hc => ?_⟩ <;>
        rcases hm with hm | hm <;>
        simp [usbConnGet, readyCases, hm, List.getD] at * <;>
        simp [hc.1, hc.2]
  | true =>
    cases pool with
    | nil =>
      have hm : choice % 2 = 0 ∨ choice % 2 = 1 := by omega
      refine ⟨fun hc _ => by simp at hc, ?_, fun c rest hc => ?_, fun _ => rfl⟩ <;>
        rcases hm with hm | hm <;>
        simp [usbConnGet, readyCases, hm, List.getD] at *
    | cons p ps =>
      have hm : choice % 3 = 0 ∨ choice % 3 = 1 ∨ choice % 3 = 2 := by omega
      refine ⟨fun hc _ => by simp at hc, ?_, fun c rest hc => ?_, fun _ => rfl⟩ <;>
        rcases hm with hm | hm | hm <;>
        simp [usbConnGet, readyCases, hm, List.getD] at * <;>
        simp [hc.1, hc.2]

/-- C1 amended witness: shutdown signalled, nothing else ready — the call
fails with the shutdown error. -/
theorem usbConnGet_after_shutdown_witness :
    usbConnGet true false [] 7 = AcqResult.err GoErr.shutdown :=
  (usbConnGet_after_shutdown false [] 7).1 rfl rfl

/-! ### Claim C2: body shaping trichotomy -/

/-- C2: body shaping by declared content length L.  L ≤ 0: the request — its
body and hence its framing — is unchanged.  0 < L < 16384: on success the
body has been replaced by an in-memory buffer holding exactly L bytes, the
content length is still the literal L, and the serialized framing is a
literal Content-Length L, not chunked.  L ≥ 16384: the content length is set
to -1 (unknown) so that a request with a body is serialized with chunked
transfer-encoding and no Content-Length header. -/
theorem shapeBody_spec (rq : RtRequest) :
    (rq.contentLength ≤ 0 → shapeBody rq = Except.ok (asShaped rq)) ∧
    (0 < rq.contentLength → rq.contentLength < 16384 →
      ∀ sh, shapeBody rq = Except.ok sh →
        sh.contentLength = rq.contentLength ∧
        sh.body = ShapedBody.buffer rq.contentLength.toNat ∧
        requestFraming sh.contentLength sh.body =
          Framing.contentLength rq.contentLength) ∧
    (16384 ≤ rq.contentLength →
      shapeBody rq = Except.ok { asShaped rq with contentLength := -1 } ∧
      ∀ s, rq.body = some s →
        requestFraming (-1) (ShapedBody.stream s) = Framing.chunked) := by
  refine ⟨fun h => ?_, fun h1 h2 sh hsh => ?_, fun h => ⟨?_, fun s _ => rfl⟩⟩
  · simp [shapeBody, h]
  · have hn0 : ¬ rq.contentLength ≤ 0 := by omega
    rw [shapeBody, if_neg hn0, if_pos h2] at hsh
    cases hc : goCopyN rq.contentLength.toNat (rq.body.getD []) with
    | mk cnt e =>
      cases e with
      | some err => rw [hc] at hsh; cases hsh
      | none =>
        rw [hc] at hsh
        have hcnt : cnt = rq.contentLength.toNat := by
          have := goCopyN_complete rq.contentLength.toNat (rq.body.getD [])
            (by rw [hc])
          rw [hc] at this
          exact this
        cases hsh
        refine ⟨rfl, by rw [hcnt], ?_⟩
        simp only [requestFraming]
        rw [if_pos h1]
  · have hn0 : ¬ rq.contentLength ≤ 0 := by omega
    have hn1 : ¬ rq.contentLength < 16384 := by omega
    rw [shapeBody, if_neg hn0, if_neg hn1]

/-- C2 witness: the three branches at content lengths 0, 100 (with a body
delivering 100 bytes) and 16384. -/
theorem shapeBody_spec_witness :
    shapeBody ⟨[], false, false, 0, some [(7, none)]⟩ =
      Except.ok (asShaped ⟨[], false, false, 0, some [(7, none)]⟩) ∧
    (shapeBody ⟨[], false, false, 100, some [(100, none)]⟩ =
        Except.ok ⟨[], false, 100, ShapedBody.buffer 100⟩ →
      (ShapedRequest.contentLength ⟨[], false, 100, ShapedBody.buffer 100⟩ = 100 ∧
       ShapedRequest.body ⟨[], false, 100, ShapedBody.buffer 100⟩ =
         ShapedBody.buffer 100 ∧
       requestFraming 100 (ShapedBody.buffer 100) = Framing.contentLength 100)) ∧
    shapeBody ⟨[], false, false, 16384, some [(5, none)]⟩ =
      Except.ok { asShaped ⟨[], false, false, 16384, some [(5, none)]⟩ with
        contentLength := -1 } := by
  refine ⟨(shapeBody_spec _).1 (by norm_num), ?_, ((shapeBody_spec _).2.2 (by norm_num)).1⟩
  intro hok
  have h100 : ((100 : Int)).toNat = 100 := rfl
  simpa [h100] using (shapeBody_spec ⟨[], false, false, 100, some [(100, none)]⟩).2.1
    (by norm_num) (by norm_num) _ hok

/-! ### Claim C7: write / parse errors release the connection -/

/-- C7: once a connection has been acquired, a failure of the request write
or of the response parse puts the connection back into the pool and returns
that error to the caller: the trace shows exactly one put and no destroy,
the error is the result, and the pool afterwards is a permutation of the
pool before. -/
theorem rtRoundTrip_error_release (rq : RtRequest) (p : Nat) (ps : List Nat)
    (orc : RtOracle) (sh : ShapedRequest)
    (hsh : shapeBody (rtPrep rq) = Except.ok sh)
    (hacq : usbConnGet orc.shutdownClosed orc.ctxDone (p :: ps) orc.choice =
      AcqResult.conn p ps) :
    (∀ e, orc.writeErr = some e →
      rtRoundTrip rq (p :: ps) orc =
        (RtResult.err e, ps ++ [p],
         [Ev.acquire p, Ev.usbWrite (requestFraming sh.contentLength sh.body),
          Ev.put p])) ∧
    (∀ e, orc.writeErr = none → orc.parseErr = some e →
      rtRoundTrip rq (p :: ps) orc =
        (RtResult.err e, ps ++ [p],
         [Ev.acquire p, Ev.usbWrite (requestFraming sh.contentLength sh.body),
          Ev.usbParse, Ev.put p])) ∧
    (ps ++ [p]).Perm (p :: ps) := by
  refine ⟨fun e he => ?_, fun e hw hp => ?_, List.perm_append_singleton p ps⟩
  · rw [rtRoundTrip, hsh, hacq, he]
  · rw [rtRoundTrip, hsh, hacq, hw, hp]

/-- C7 witness: a bodiless request on a one-connection pool whose USB write
fails: the connection is put back and the write error is returned. -/
theorem rtRoundTrip_error_release_witness :
    rtRoundTrip ⟨[], false, false, 0, none⟩ [3]
        ⟨false, false, 0, some (GoErr.other 7), none⟩ =
      (RtResult.err (GoErr.other 7), [] ++ [3],
       [Ev.acquire 3,
        Ev.usbWrite (requestFraming
          (asShaped (rtPrep ⟨[], false, false, 0, none⟩)).contentLength
          (asShaped (rtPrep ⟨[], false, false, 0, none⟩)).body),
        Ev.put 3]) :=
  (rtRoundTrip_error_release ⟨[], false, false, 0, none⟩ 3 []
      ⟨false, false, 0, some (GoErr.other 7), none⟩
      (asShaped (rtPrep ⟨[], false, false, 0, none⟩))
      (by rfl) (by rfl)).1 (GoErr.other 7) rfl

/-! ### Claim C10: short small body aborts before acquisition -/

/-- C10: for a declared content length 0 < L < 16384 whose body delivers
fewer than L bytes before end-of-stream or an error, the round trip returns
io.EOF (the request body wrapper coerces every body error to EOF) without
acquiring a connection: the pool is literally unchanged and the event trace
is empty — no bytes reach the USB device. -/
theorem rtRoundTrip_short_body (rq : RtRequest) (pool : List Nat)
    (orc : RtOracle) (s : BodyStream) (hbody : rq.body = some s)
    (h1 : 0 < rq.contentLength) (h2 : rq.contentLength < 16384)
    (hshort : streamAvail s < rq.contentLength.toNat) :
    rtRoundTrip rq pool orc = (RtResult.err GoErr.eof, pool, []) := by
  have hprep : (rtPrep rq).body = some (wrapBody s) := by
    simp [rtPrep, hbody]
  have hcl : (rtPrep rq).contentLength = rq.contentLength := rfl
  have hcopy : goCopyN (rtPrep rq).contentLength.toNat ((rtPrep rq).body.getD []) =
      (streamAvail (wrapBody s), some (streamErr (wrapBody s))) := by
    rw [hprep, hcl]
    exact goCopyN_short _ _
      (by simp only [Option.getD_some]; rw [wrapBody_avail]; exact hshort)
  have hshape : shapeBody (rtPrep rq) = Except.error GoErr.eof := by
    rw [shapeBody, if_neg (by omega : ¬ (rtPrep rq).contentLength ≤ 0),
        if_pos (by rw [hcl]; exact h2), hcopy, wrapBody_err]
  rw [rtRoundTrip, hshape]

/-- C10 witness: content length 100, a body that delivers 50 bytes and ends;
the round trip fails with io.EOF, touching neither the pool nor the USB
device. -/
theorem rtRoundTrip_short_body_witness :
    rtRoundTrip ⟨[], false, false, 100, some [(50, none)]⟩ [1, 2]
        ⟨false, false, 0, none, none⟩ =
      (RtResult.err GoErr.eof, [1, 2], []) :=
  rtRoundTrip_short_body ⟨[], false, false, 100, some [(50, none)]⟩ [1, 2]
    ⟨false, false, 0, none, none⟩ [(50, none)] rfl (by norm_num) (by norm_num)
    (by decide)

/-! ### Claim C3: usbResponseBodyWrapper close policy -/

/-- The drained flag of usbResponseBodyWrapper after a sequence of Read
results (part_000 lines 344-354): Read sets drained when the underlying body
returns any error, io.EOF included. -/
def respDrained (reads : List (Nat × Option GoErr)) : Bool :=
  reads.any (fun p => p.2.isSome)

/-- Actions of usbResponseBodyWrapper.Close and of the goroutine it may
spawn. -/
inductive CloseEv where
  | drainBody   -- io.Copy(ioutil.Discard, wrap.body)
  | closeBody   -- wrap.body.Close()
  | putConn     -- wrap.conn.put()
deriving Repr, DecidableEq

/-- usbResponseBodyWrapper.Close (part_000 lines 357-381): result, the
actions performed synchronously before Close returns, and the actions of the
spawned background goroutine. -/
def respClose (drained : Bool) : Option GoErr × List CloseEv × List CloseEv :=
  if drained then (none, [CloseEv.closeBody, CloseEv.putConn], [])
  else (none, [], [CloseEv.drainBody, CloseEv.closeBody, CloseEv.putConn])

/-- C3: closing the response body adapter after any sequence of reads: if a
read saw end-of-stream or an error (drained), Close synchronously closes the
body and then returns the connection, spawning nothing; if not drained,
Close performs nothing synchronously — returning success immediately — and
the background task drains the remaining body, closes it and returns the
connection; in both cases Close succeeds and the connection is released
exactly once. -/
theorem respClose_spec (reads : List (Nat × Option GoErr)) :
    (respClose (respDrained reads)).1 = none ∧
    (respDrained reads = true →
      respClose (respDrained reads) =
        (none, [CloseEv.closeBody, CloseEv.putConn], [])) ∧
    (respDrained reads = false →
      respClose (respDrained reads) =
        (none, [], [CloseEv.drainBody, CloseEv.closeBody, CloseEv.putConn])) ∧
    ((respClose (respDrained reads)).2.1 ++
       (respClose (respDrained reads)).2.2).count CloseEv.putConn = 1 := by
  cases hd : respDrained reads <;>
    simp [respClose, List.count_cons, List.count_append]

/-- C3 witness: a body read to EOF (drained: synchronous close) — the claim
theorem applied at a concrete read sequence. -/
theorem respClose_spec_witness :
    respClose (respDrained [(4, none), (0, some GoErr.eof)]) =
      (none, [CloseEv.closeBody, CloseEv.putConn], []) :=
  (respClose_spec [(4, none), (0, some GoErr.eof)]).2.1 rfl

/-! ### Claims C5/C6: usbConn.Read — alignment and zero-read recovery -/

/-- Buffer-length alignment of usbConn.Read (part_000 lines 442-445): a
caller buffer of at least 512 bytes is truncated to a multiple of 512 (Go:
`n &= ^511`, clearing the 9 low bits of the non-negative length, is division
then multiplication by 512 = 2^9); shorter buffers pass through unchanged. -/
def alignedLen (n : Nat) : Nat :=
  if 512 ≤ n then (n >>> 9) <<< 9 else n

/-- Events of the zero-read recovery loop. -/
inductive ReadEv where
  | clearHalt        -- conn.iface.ClearHalt(true)
  | sleep (ms : Nat) -- time.Sleep(backoff)
deriving Repr, DecidableEq

/-- The receive loop of usbConn.Read (part_000 lines 447-478).  The oracle
lists the successive results of conn.iface.Recv.  A non-zero byte count or
an error returns immediately to the caller; a zero-byte success clears the
input endpoint halt, sleeps the current backoff, doubles the backoff capping
it at 1000 ms, and retries.  An exhausted oracle (`none`) models a loop
still blocked in Recv. -/
def usbReadLoop (backoff : Nat) :
    List (Nat × Option GoErr) → Option (Nat × Option GoErr) × List ReadEv
  | [] => (none, [])
  | (n, e) :: rest =>
    if n ≠ 0 ∨ e ≠ none then (some (n, e), [])
    else
      let r := usbReadLoop (min (backoff * 2) 1000) rest
      (r.1, ReadEv.clearHalt :: ReadEv.sleep backoff :: r.2)

/-- usbConn.Read (part_000 lines 429-479): the buffer handed to the USB
layer is the aligned prefix of the caller's buffer, and the result comes
from the zero-read recovery loop started at a 100 ms backoff. -/
def usbConnRead (bufLen : Nat) (oracle : List (Nat × Option GoErr)) :
    Nat × (Option (Nat × Option GoErr) × List ReadEv) :=
  (alignedLen bufLen, usbReadLoop 100 oracle)

/-- The events of `k` consecutive zero-reads starting at backoff `b`. -/
def zeroEvents : Nat → Nat → List ReadEv
  | _, 0 => []
  | b, k + 1 => ReadEv.clearHalt :: ReadEv.sleep b :: zeroEvents (min (b * 2) 1000) k

/-- The backoff after `k` zero-reads starting from `b`. -/
def backoffAfter : Nat → Nat → Nat
  | b, 0 => b
  | b, k + 1 => backoffAfter (min (b * 2) 1000) k

theorem usbReadLoop_replicate (k : Nat) (b : Nat)
    (rest : List (Nat × Option GoErr)) :
    usbReadLoop b (List.replicate k (0, none) ++ rest) =
      ((usbReadLoop (backoffAfter b k) rest).1,
       zeroEvents b k ++ (usbReadLoop (backoffAfter b k) rest).2) := by
  induction k generalizing b with
  | zero => simp [zeroEvents, backoffAfter]
  | succ k ih =>
    simp [List.replicate_succ, usbReadLoop, zeroEvents, backoffAfter, ih]

theorem zeroEvents_count (k : Nat) (b : Nat) :
    (zeroEvents b k).count ReadEv.clearHalt = k := by
  induction k generalizing b with
  | zero => rfl
  | succ k ih => simp [zeroEvents, List.count_cons, ih]

theorem zeroEvents_sleep_le (k : Nat) (b : Nat) (hb : b ≤ 1000) (ms : Nat)
    (hms : ReadEv.sleep ms ∈ zeroEvents b k) : ms ≤ 1000 := by
  induction k generalizing b with
  | zero => simp [zeroEvents] at hms
  | succ k ih =>
    simp [zeroEvents] at hms
    rcases hms with hms | hms
    · omega
    · exact ih (min (b * 2) 1000) (by omega) hms

/-- C5: the zero-read recovery of usbConn.Read.  (i) A non-zero Recv result
or any Recv error returns immediately with no clear-halt and no sleep.
(ii) `k` consecutive zero-byte successes produce exactly the clear-halt /
sleep pairs of `zeroEvents`, then the loop continues with backoff doubled
`k` times capped at 1000 ms.  (iii) The number of clear-halt calls equals
the number of zero-reads.  (iv) Three zero-reads followed by real bytes:
the caller receives the real bytes only after three clear-halts and sleeps
of 100, 200 and 400 ms.  (v) No sleep ever exceeds 1000 ms. -/
theorem usbConnRead_zero_read_spec :
    (∀ b n e rest, n ≠ 0 ∨ e ≠ none →
      usbReadLoop b ((n, e) :: rest) = (some (n, e), [])) ∧
    (∀ k rest,
      (usbConnRead 512 (List.replicate k (0, none) ++ rest)).2 =
        ((usbReadLoop (backoffAfter 100 k) rest).1,
         zeroEvents 100 k ++ (usbReadLoop (backoffAfter 100 k) rest).2)) ∧
    (∀ k b, (zeroEvents b k).count ReadEv.clearHalt = k) ∧
    (∀ nr rest, nr ≠ 0 →
      (usbConnRead 512 (List.replicate 3 (0, none) ++ (nr, none) :: rest)).2 =
        (some (nr, none),
         [ReadEv.clearHalt, ReadEv.sleep 100, ReadEv.clearHalt, ReadEv.sleep 200,
          ReadEv.clearHalt, ReadEv.sleep 400])) ∧
    (∀ k ms, ReadEv.sleep ms ∈ zeroEvents 100 k → ms ≤ 1000) := by
  have himm : ∀ b n e rest, n ≠ 0 ∨ e ≠ none →
      usbReadLoop b ((n, e) :: rest) = (some (n, e), []) := by
    intro b n e rest h
    rw [usbReadLoop, if_pos h]
  refine ⟨himm, fun k rest => ?_, fun k b => zeroEvents_count k b,
    fun nr rest hnr => ?_, fun k ms => zeroEvents_sleep_le k 100 (by omega) ms⟩
  · simpa [usbConnRead] using usbReadLoop_replicate k 100 rest
  · have h3 := usbReadLoop_replicate 3 100 ((nr, none) :: rest)
    have hend := himm (backoffAfter 100 3) nr none rest (Or.inl hnr)
    simp only [usbConnRead, h3, hend]
    rfl

/-- C5 witness: three zero-reads then 77 real bytes — three clear-halts and
sleeps of 100 + 200 + 400 ms before the caller sees the bytes. -/
theorem usbConnRead_zero_read_spec_witness :
    (usbConnRead 512 (List.replicate 3 (0, none) ++ (77, none) :: [])).2 =
      (some (77, none),
       [ReadEv.clearHalt, ReadEv.sleep 100, ReadEv.clearHalt, ReadEv.sleep 200,
        ReadEv.clearHalt, ReadEv.sleep 400]) :=
  usbConnRead_zero_read_spec.2.2.2.1 77 [] (by omega)

/-- C6: the buffer usbConn.Read hands to the USB layer: for a caller buffer
of length at least 512 it is the same buffer truncated to the largest
multiple of 512 not exceeding its length (one single transfer, not a
split); a caller buffer shorter than 512 bytes is passed through
unchanged. -/
theorem usbConnRead_alignment (bufLen : Nat) (oracle : List (Nat × Option GoErr)) :
    (512 ≤ bufLen →
      512 ∣ (usbConnRead bufLen oracle).1 ∧
      (usbConnRead bufLen oracle).1 ≤ bufLen ∧
      bufLen < (usbConnRead bufLen oracle).1 + 512) ∧
    (bufLen < 512 → (usbConnRead bufLen oracle).1 = bufLen) := by
  have hval : 512 ≤ bufLen → (usbConnRead bufLen oracle).1 = bufLen / 512 * 512 := by
    intro h
    show alignedLen bufLen = bufLen / 512 * 512
    rw [alignedLen, if_pos h, Nat.shiftRight_eq_div_pow, Nat.shiftLeft_eq]
  constructor
  · intro h
    rw [hval h]
    refine ⟨Dvd.intro _ (Nat.mul_comm _ _), ?_, ?_⟩
    · exact Nat.div_mul_le_self bufLen 512
    · have hdm := Nat.div_add_mod bufLen 512
      have hmlt : bufLen % 512 < 512 := Nat.mod_lt _ (by omega)
      omega
  · intro h
    show alignedLen bufLen = bufLen
    rw [alignedLen, if_neg (by omega)]

/-- C6 witness: a 1000-byte caller buffer is handed to USB truncated to 512
bytes; a 100-byte buffer passes through unchanged. -/
theorem usbConnRead_alignment_witness :
    (512 ∣ (usbConnRead 1000 []).1 ∧ (usbConnRead 1000 []).1 ≤ 1000 ∧
      1000 < (usbConnRead 1000 []).1 + 512) ∧
    (usbConnRead 100 []).1 = 100 :=
  ⟨(usbConnRead_alignment 1000 []).1 (by omega),
   (usbConnRead_alignment 100 []).2 (by omega)⟩

/-! ### Claim C8: usbConnState.String -/

theorem natLorZero (m n : Nat) : m ||| n = 0 ↔ m = 0 ∧ n = 0 := by
  constructor
  · intro h
    refine ⟨Nat.zero_of_testBit_eq_false fun i => ?_,
            Nat.zero_of_testBit_eq_false fun i => ?_⟩ <;>
    · have hb := congrArg (fun x => Nat.testBit x i) h
      simp [Nat.testBit_lor] at hb
      first
      | exact hb.1
      | exact hb.2
  · rintro ⟨rfl, rfl⟩; rfl

/-- Bitwise OR of (two's-complement) integers is zero exactly when both
operands are zero — this justifies the Go test `a|r|w == 0` as an
all-three-zero test. -/
theorem intLorZero (a b : Int) : Int.lor a b = 0 ↔ a = 0 ∧ b = 0 := by
  cases a with
  | ofNat m =>
    cases b with
    | ofNat n =>
      show Int.ofNat (m ||| n) = 0 ↔ Int.ofNat m = 0 ∧ Int.ofNat n = 0
      constructor
      · intro h
        have hz := (natLorZero m n).mp (Int.ofNat_eq_zero.mp h)
        exact ⟨Int.ofNat_eq_zero.mpr hz.1, Int.ofNat_eq_zero.mpr hz.2⟩
      · intro h
        rw [Int.ofNat_eq_zero.mp h.1, Int.ofNat_eq_zero.mp h.2]
        rfl
    | negSucc n => simp [Int.lor]
  | negSucc m =>
    cases b with
    | ofNat n => simp [Int.lor]
    | negSucc n => simp [Int.lor]

/-- usbConnState (part_000 lines 544-558): per-connection alloc/read/write
counters.  newUsbConnState always creates the three arrays with one common
length, so the state is one list of (alloc, read, write) triples. -/
abbrev UsbConnState := List (Int × Int × Int)

/-- One iteration of the loop in usbConnState.String (part_000 lines
595-627): append a separating space when the buffer is non-empty, then
either three dashes when a|r|w == 0, or one flag character per counter,
incrementing the used count. -/
def connStateStep (acc : List Char × Nat) (t : Int × Int × Int) :
    List Char × Nat :=
  let buf := if acc.1.length ≠ 0 then acc.1 ++ [' '] else acc.1
  if Int.lor (Int.lor t.1 t.2.1) t.2.2 = 0 then
    (buf ++ ['-', '-', '-'], acc.2)
  else
    (buf ++ [if t.1 ≠ 0 then 'a' else '-',
             if t.2.1 ≠ 0 then 'r' else '-',
             if t.2.2 ≠ 0 then 'w' else '-'], acc.2 + 1)

/-- usbConnState.String (part_000 lines 591-630):
fmt.Sprintf of the used count and the flags buffer. -/
def connStateString (st : UsbConnState) : String :=
  toString (st.foldl connStateStep ([], 0)).2 ++ " in use: " ++
    String.mk (st.foldl connStateStep ([], 0)).1

/-- The three flag characters of one connection index: a or dash, r or
dash, w or dash.  (For an all-zero triple this is exactly the "---" group
of the source.) -/
def flagsTriple (t : Int × Int × Int) : List Char :=
  [if t.1 ≠ 0 then 'a' else '-',
   if t.2.1 ≠ 0 then 'r' else '-',
   if t.2.2 ≠ 0 then 'w' else '-']

/-- The expected flags field: three characters per connection index,
space-separated. -/
def specFlags : UsbConnState → List Char
  | [] => []
  | t :: rest =>
    flagsTriple t ++
      (match rest with
       | [] => []
       | _ :: _ => ' ' :: specFlags rest)

/-- The number of connections whose three counters are not all zero. -/
def specUsed : UsbConnState → Nat
  | [] => 0
  | t :: rest =>
    (if t.1 = 0 ∧ t.2.1 = 0 ∧ t.2.2 = 0 then 0 else 1) + specUsed rest

theorem connStateStep_eq (acc : List Char × Nat) (t : Int × Int × Int) :
    connStateStep acc t =
      ((if acc.1.length ≠ 0 then acc.1 ++ [' '] else acc.1) ++ flagsTriple t,
       acc.2 + (if t.1 = 0 ∧ t.2.1 = 0 ∧ t.2.2 = 0 then 0 else 1)) := by
  obtain ⟨a, r, w⟩ := t
  by_cases hz : a = 0 ∧ r = 0 ∧ w = 0
  · obtain ⟨rfl, rfl, rfl⟩ := hz
    simp [connStateStep, flagsTriple, (by decide : Int.lor (Int.lor 0 0) 0 = 0)]
  · have hlor : ¬ Int.lor (Int.lor a r) w = 0 := by
      intro hc
      obtain ⟨h1, h2⟩ := (intLorZero _ _).mp hc
      obtain ⟨ha, hr⟩ := (intLorZero _ _).mp h1
      exact hz ⟨ha, hr, h2⟩
    simp [connStateStep, flagsTriple, hlor, hz]

theorem flagsTriple_ne_nil (t : Int × Int × Int) : flagsTriple t ≠ [] := by
  obtain ⟨a, r, w⟩ := t
  simp [flagsTriple]

theorem connStateFold (st : UsbConnState) (buf : List Char) (used : Nat)
    (hbuf : buf ≠ []) :
    st.foldl connStateStep (buf, used) =
      (buf ++ (match st with | [] => [] | _ :: _ => ' ' :: specFlags st),
       used + specUsed st) := by
  induction st generalizing buf used with
  | nil => simp [specUsed]
  | cons t rest ih =>
    rw [List.foldl_cons, connStateStep_eq]
    have hlen : (buf.length ≠ 0) = True := by
      simp [List.length_eq_zero, hbuf]
    rw [if_pos (by simp [hlen.symm ▸ trivial, List.length_eq_zero, hbuf])]
    cases rest with
    | nil =>
      simp [specFlags, specUsed, List.append_assoc]
    | cons u us =>
      rw [ih (buf ++ [' '] ++ flagsTriple t) _
        (by simp [flagsTriple_ne_nil t])]
      simp [specFlags, specUsed, List.append_assoc]
      omega

/-- C8: the string form of the Connection State Tracker is
"<N> in use: <flags>", where flags carry three characters per connection
index — a or - for alloc, r or - for read, w or - for write, the groups
being space-separated — and N counts the connections whose three counters
are not all zero. -/
theorem connStateString_spec (st : UsbConnState) :
    connStateString st =
      toString (specUsed st) ++ " in use: " ++ String.mk (specFlags st) ∧
    ∀ a r w : Int, flagsTriple (a, r, w) =
      [if a ≠ 0 then 'a' else '-', if r ≠ 0 then 'r' else '-',
       if w ≠ 0 then 'w' else '-'] := by
  refine ⟨?_, fun a r w => rfl⟩
  have hstep0 : ∀ t : Int × Int × Int, connStateStep ([], 0) t =
      (flagsTriple t, if t.1 = 0 ∧ t.2.1 = 0 ∧ t.2.2 = 0 then 0 else 1) := by
    intro t
    rw [connStateStep_eq]
    simp
  cases st with
  | nil => rfl
  | cons t rest =>
    rw [connStateString, List.foldl_cons, hstep0]
    cases rest with
    | nil =>
      simp [specFlags, specUsed]
    | cons u us =>
      rw [connStateFold (u :: us) (flagsTriple t) _ (flagsTriple_ne_nil t)]
      simp [specFlags, specUsed]

end IppUsb
